import Mathlib

/-
Verification of the c3-node-proxy concurrent state-management core.

The Go sources are shallowly embedded below:
  * `Workload`, `isRunning`                — part_003 (`Workload` struct, running predicate)
  * `trackRequest`, `trackStates`          — loadbalancer.go `TrackRequest`
  * `readCount`, `selectLoop`,
    `candidateNodes`, `getLeastBusyNode`   — loadbalancer.go `GetLeastBusyNode`
  * `addTags`, `buildTagMap`,
    `runningCount`, `updateCache`          — part_003 `updateCache`
  * `refreshTick`, `hasActiveRequests`     — part_003 `startCacheRefresh` (one tick)
  * `getWorkloadsResult`                   — part_003 `getWorkloads` (returned value)
  * `handleProxyRequest`                   — part_000 `HandleProxyRequest`
  * `splitN`, `atoi`, `routeByIndex`,
    `routeRequestPath`                     — part_000 `ProxyHandler` (index branch)
  * lock-event traces                      — lock acquisition order of the two
                                             RWMutexes in loadbalancer.go / part_003
  * `extractAPIKey`, `authStatus`          — part_000 `ProxyHandler` (credential scan)

Go machine integers are modelled as `Int` (counts never approach overflow),
timestamps as `Nat` seconds, Go maps as functions with the zero-value default
made explicit through `Option`, and fallible I/O as `Except`/parameters that
stand for the outcome of the corresponding call.
-/

set_option autoImplicit false

namespace C3Proxy

/-- A backend workload record, as decoded from the upstream listing API
(struct `Workload` in the source; the Go field `Type` is rendered `wltype`,
and `Tags []string` keeps its nil-vs-empty distinction as `Option`). -/
structure Workload where
  created : Int
  expires : Int
  node : String
  running : Bool
  status : String
  wltype : String
  workload : String
  tags : Option (List String)
deriving DecidableEq

instance : Inhabited Workload := ⟨⟨0, 0, "", false, "", "", "", none⟩⟩

/-- The running-node predicate `w.Running && w.Status == "running"` used
throughout the source (updateCache, GetLeastBusyNode, ProxyHandler). -/
def isRunning (w : Workload) : Bool :=
  w.running && (w.status == "running")

/-- One `TrackRequest` update of a single (tenant, node) in-flight cell
(loadbalancer.go lines 96-120): a decrement from a value that is already
`≤ 0` stores 0, a decrement that would cross below zero stores 0, and a
final guard resets any negative result to 0. A missing map entry reads as
the Go zero value 0, so the cell's whole history is a fold of this step. -/
def trackRequest (current delta : Int) : Int :=
  if delta < 0 ∧ current ≤ 0 then 0
  else if delta < 0 ∧ current < -delta then 0
  else if current + delta < 0 then 0
  else current + delta

/-- The successive stored values of one (tenant, node) cell, starting from an
absent entry (implicit 0), under a sequence of `TrackRequest` deltas. -/
def trackStates (deltas : List Int) : List Int :=
  List.scanl trackRequest 0 deltas

/-- Reading a node's in-flight count from the per-tenant inner map
(`p.inFlightRequests[apiKey][node]` in GetLeastBusyNode): a missing entry
reads as the Go zero value 0. -/
def readCount (counts : String → Option Int) (node : String) : Int :=
  (counts node).getD 0

/-- The selection loop of GetLeastBusyNode (loadbalancer.go lines 73-81):
`minRequests` starts at the sentinel -1; each candidate's count (`requests`)
replaces the running minimum when the sentinel is still set or when it is
strictly smaller. -/
def selectLoop (counts : String → Option Int) :
    List String → String → Int → String × Int
  | [], selectedNode, minRequests => (selectedNode, minRequests)
  | node :: rest, selectedNode, minRequests =>
    if minRequests = -1 ∨ readCount counts node < minRequests then
      selectLoop counts rest node (readCount counts node)
    else
      selectLoop counts rest selectedNode minRequests

/-- Candidate enumeration of GetLeastBusyNode (loadbalancer.go lines 35-59):
for tag "all" the upstream-reported workload order filtered to running nodes
(requiring a cache entry with a non-nil workload list), otherwise the tag
index bucket, which must be present and non-empty. -/
def candidateNodes (workloads : Option (List Workload))
    (tagMap : Option (String → List String)) (tag : String) :
    Option (List String) :=
  if tag = "all" then
    match workloads with
    | none => none
    | some ws => some ((ws.filter (fun w => isRunning w)).map (fun w => w.node))
  else
    match tagMap with
    | none => none
    | some tm => if (tm tag).isEmpty then none else some (tm tag)

/-- GetLeastBusyNode after the optional forced refresh (loadbalancer.go
lines 35-84): enumerate candidates, fail on an empty set, and run the
selection loop from the sentinel state ("", -1). -/
def getLeastBusyNode (workloads : Option (List Workload))
    (tagMap : Option (String → List String))
    (counts : String → Option Int) (tag : String) : Option String :=
  match candidateNodes workloads tagMap tag with
  | none => none
  | some nodes =>
    if nodes.isEmpty then none
    else some (selectLoop counts nodes "" (-1)).1

/-- Running minimum of the counts of `nodes`, seeded with `m`. -/
def minFrom (counts : String → Option Int) (m : Int) (nodes : List String) : Int :=
  nodes.foldl (fun acc node => min acc (readCount counts node)) m

/-- Minimum in-flight count over a candidate list (0 on the empty list,
which the selection never reaches). -/
def minCount (counts : String → Option Int) : List String → Int
  | [] => 0
  | node :: rest => minFrom counts (readCount counts node) rest

/-- Per-tenant cache entry (`WorkloadCache` struct in part_003, with the
`StopRefresh` channel handle omitted and timestamps as seconds). `Workloads`
keeps its nil-vs-present distinction as `Option`. -/
structure CacheState where
  workloads : Option (List Workload)
  lastFetch : Nat
  lastAccess : Nat
deriving DecidableEq

/-- A tenant's slice of the two registry maps: `workloadCache[apiKey]` and
`tagMappings[apiKey]`. The tag index is a Go map, modelled as a function with
the zero-value default `[]`; `Option` records whether the tenant key is
present at all. -/
structure TenantCache where
  cache : Option CacheState
  tagMap : Option (String → List String)

/-- The inner tag loop of updateCache (part_003 lines 142-144):
`tagMap[tag] = append(tagMap[tag], w.Node)` for each tag of one workload. -/
def addTags (node : String) : List String → (String → List String) → String → List String
  | [], m => m
  | tag :: rest, m =>
    addTags node rest (fun t => if t = tag then m t ++ [node] else m t)

/-- The workload loop of updateCache (part_003 lines 126-146), threading the
tag map being built: only workloads passing the running predicate contribute
their tags (a nil tag list is treated as empty). -/
def buildTagMapFrom : List Workload → (String → List String) → String → List String
  | [], m => m
  | w :: rest, m =>
    buildTagMapFrom rest
      (if isRunning w then addTags w.node (w.tags.getD []) m else m)

/-- The tag index recomputed by updateCache from scratch (`tagMap :=
make(map[string][]string)` then the workload loop). -/
def buildTagMap (workloads : List Workload) : String → List String :=
  buildTagMapFrom workloads (fun _ => [])

/-- The `runningCount` accumulator of updateCache (part_003 line 130),
incremented once per workload passing the running predicate. -/
def runningCount (workloads : List Workload) : Nat :=
  workloads.foldl (fun c w => if isRunning w then c + 1 else c) 0

/-- updateCache (part_003 lines 105-175): a no-op when the tenant has no
cache entry (`cache == nil` early return); otherwise replaces the stored
workload list, stamps the fetch time, and installs the recomputed tag index.
The old/new node sets are only logged and carry no state. -/
def updateCache (st : TenantCache) (workloads : List Workload) (now : Nat) :
    TenantCache :=
  match st.cache with
  | none => st
  | some c =>
    { cache := some { workloads := some workloads, lastFetch := now,
                      lastAccess := c.lastAccess },
      tagMap := some (buildTagMap workloads) }

/-- The in-flight activity check of the background task (part_003 lines
229-241): the tenant's inner counter map, when present, is scanned for any
node with a positive count. -/
def hasActiveRequests (inFlight : Option (List (String × Int))) : Bool :=
  match inFlight with
  | none => false
  | some entries => entries.any (fun e => decide (0 < e.2))

/-- Outcome of one tick of a tenant's background refresh task. -/
inductive TickResult where
  /-- The cache entry disappeared under the task: stop (part_003 lines 218-223). -/
  | terminatedLostCache (st : TenantCache)
  /-- Idle eviction: both maps removed and the task ends (lines 244-257). -/
  | terminatedEvicted (st : TenantCache)
  /-- The task fetched (successfully or not) and waits for the next tick. -/
  | continued (st : TenantCache)

/-- One tick of the background goroutine of startCacheRefresh (part_003 lines
214-287): snapshot the cache entry (terminating when it is gone), check the
in-flight counters, evict and terminate when idle for more than 180 seconds
with no active request, otherwise fetch — a failed fetch is only logged,
a successful one (even empty) is stored via updateCache. `now` is the
current time in seconds and `fetchResult` the outcome of this tick's
upstream listing call. -/
def refreshTick (cache : Option CacheState)
    (tagMap : Option (String → List String))
    (inFlight : Option (List (String × Int))) (now : Nat)
    (fetchResult : Except Unit (List Workload)) : TickResult :=
  match cache with
  | none => .terminatedLostCache ⟨none, tagMap⟩
  | some c =>
    if 180 < now - c.lastAccess ∧ hasActiveRequests inFlight = false then
      .terminatedEvicted ⟨none, none⟩
    else
      match fetchResult with
      | .error _ => .continued ⟨some c, tagMap⟩
      | .ok ws => .continued (updateCache ⟨some c, tagMap⟩ ws now)

/-- The value returned by getWorkloads (part_003 lines 291-366). The state
effects on the registry (updateLastAccess, startCacheRefresh, updateCache)
are modelled separately; this captures the returned (workloads, error) pair
as a function of the tenant's cache entry, the clock, and the outcome the
upstream fetch would have if performed. A fresh non-empty cache with a
running node short-circuits without fetching; a missing entry or an
empty/nil list propagates a fetch failure; a stale or running-free non-empty
cache falls back to the cached list when the fetch fails. -/
def getWorkloadsResult (cache : Option CacheState) (now : Nat)
    (fetchResult : Except Unit (List Workload)) :
    Except Unit (List Workload) :=
  match cache with
  | none => fetchResult
  | some c =>
    match c.workloads with
    | none => fetchResult
    | some [] => fetchResult
    | some (w0 :: rest) =>
      let hasRunningNodes := (w0 :: rest).any (fun w => isRunning w)
      let staleCache := decide (60 < now - c.lastFetch)
      if !hasRunningNodes || staleCache then
        match fetchResult with
        | .error _ => .ok (w0 :: rest)
        | .ok ws => .ok ws
      else
        .ok (w0 :: rest)

/-- What one HandleProxyRequest invocation produced for the caller. -/
inductive ProxyOutcome where
  /-- An `http.Error` reply sent before any upstream bytes were relayed. -/
  | clientError (status : Nat)
  /-- The upstream status was relayed; `copyComplete` records whether the
  body copy finished without a read/write error (such errors are only
  logged). -/
  | relayed (status : Nat) (copyComplete : Bool)
deriving DecidableEq

/-- Observable result of HandleProxyRequest for one (tenant, node) counter
cell. -/
structure ProxyRun where
  outcome : ProxyOutcome
  finalCount : Int
  /-- The counter value in force while the outbound call was issued
  (`none` when the request could not even be constructed). -/
  inFlightDuringCall : Option Int
deriving DecidableEq

/-- HandleProxyRequest (part_000 lines 14-92) restricted to one
(tenant, node) counter cell. `buildOk` is whether `http.NewRequest`
succeeded (line 20), `transport` the outcome of `client.Do` (line 48,
carrying the upstream status on success), and `copyOk` whether the body
relay loop finished without error. Construction failure replies 500 before
the counter is touched; after the increment (line 31) the deferred
decrement (line 39) runs on every exit path: transport failure (502 reply),
relay success, or relay failure. -/
def handleProxyRequest (count : Int) (buildOk : Bool)
    (transport : Except Unit Nat) (copyOk : Bool) : ProxyRun :=
  if buildOk = false then
    { outcome := .clientError 500, finalCount := count, inFlightDuringCall := none }
  else
    let c1 := trackRequest count 1
    match transport with
    | .error _ =>
      { outcome := .clientError 502, finalCount := trackRequest c1 (-1),
        inFlightDuringCall := some c1 }
    | .ok status =>
      { outcome := .relayed status copyOk, finalCount := trackRequest c1 (-1),
        inFlightDuringCall := some c1 }

/-- Go `strings.SplitN(s, "/", n)` on the character list of `s`: at most `n`
pieces, the last piece keeps the unscanned remainder, `n = 0` yields no
pieces. -/
def splitOnSlash : List Char → Nat → List (List Char)
  | _, 0 => []
  | cs, 1 => [cs]
  | cs, n + 2 =>
    match cs.dropWhile (fun ch => ch != '/') with
    | [] => [cs]
    | _ :: tail => cs.takeWhile (fun ch => ch != '/') :: splitOnSlash tail (n + 1)

/-- Go `strings.SplitN(s, "/", n)` as used by ProxyHandler. -/
def splitN (s : String) (n : Nat) : List String :=
  (splitOnSlash s.data n).map String.mk

/-- Go `strings.TrimPrefix(path, "/")`: drop one leading slash if present. -/
def trimLeadingSlash (s : String) : String :=
  match s.data with
  | '/' :: rest => String.mk rest
  | _ => s

/-- Digit run of Go `strconv.Atoi`: fails on any non-digit character. -/
def parseDigitsAux (acc : Nat) : List Char → Option Nat
  | [] => some acc
  | c :: rest =>
    if c.isDigit then parseDigitsAux (10 * acc + (c.toNat - 48)) rest else none

/-- Go `strconv.Atoi`: optional sign followed by at least one digit
(the int-range check is immaterial for the small indices routed here). -/
def atoi (s : String) : Option Int :=
  match s.data with
  | [] => none
  | '-' :: rest =>
    match rest with
    | [] => none
    | _ => (parseDigitsAux 0 rest).map (fun n => -(n : Int))
  | '+' :: rest =>
    match rest with
    | [] => none
    | _ => (parseDigitsAux 0 rest).map (fun n => (n : Int))
  | cs => (parseDigitsAux 0 cs).map (fun n => (n : Int))

/-- The downstream path rewritten by ProxyHandler (part_000 lines 212-216):
"/" followed by the joined remainder parts, or "/" when none remain. -/
def restPath (rest : List String) : String :=
  match rest with
  | [] => "/"
  | _ => "/" ++ String.intercalate "/" rest

/-- How ProxyHandler disposed of a routed request. -/
inductive RouteOutcome where
  | httpError (status : Nat)
  | proxyTo (node : String) (path : String)
deriving DecidableEq

/-- The index branch of ProxyHandler (part_000 lines 170-216), given the
split path parts and the workload list returned by the forced refresh: a
non-numeric head is a 400, an empty running filter or an out-of-range index
a 404, and otherwise the request goes to the index-th running workload with
the rewritten downstream path. -/
def routeByIndex (parts : List String) (workloads : List Workload) :
    RouteOutcome :=
  match parts with
  | [] => .httpError 400
  | p0 :: rest =>
    match atoi p0 with
    | none => .httpError 400
    | some index =>
      let runningWorkloads := workloads.filter (fun w => isRunning w)
      if runningWorkloads.isEmpty then .httpError 404
      else if index < 0 ∨ (runningWorkloads.length : Int) ≤ index then
        .httpError 404
      else
        .proxyTo (runningWorkloads.getD index.toNat default).node (restPath rest)

/-- Path dispatch of ProxyHandler (part_000 lines 144-217) for the
non-"tags" branch: split the trimmed path into at most three parts and route
by index; the "tags" branch is outside this model (`none`). -/
def routeRequestPath (path : String) (workloads : List Workload) :
    Option RouteOutcome :=
  match splitN (trimLeadingSlash path) 3 with
  | [] => some (.httpError 400)
  | p0 :: rest =>
    if p0 = "tags" then none
    else some (routeByIndex (p0 :: rest) workloads)

/-- The two RWMutexes of ProxyServer: `cacheLock` guards the registry
(workloadCache and tagMappings), `requestLock` guards the in-flight counter
table. -/
inductive LockId where
  | cacheLock
  | requestLock
deriving DecidableEq

/-- A lock operation; `write` distinguishes `Lock`/`Unlock` from
`RLock`/`RUnlock`. -/
inductive LockEvent where
  | acq (l : LockId) (write : Bool)
  | rel (l : LockId) (write : Bool)
deriving DecidableEq

/-- Lock operations of GetLeastBusyNode on its main selection path with an
existing inner counter map (loadbalancer.go): the pre-check read of the
cache (lines 8, 19), then `requestLock.RLock` (line 29) held across
`cacheLock.RLock` (line 32), released by the deferred unlocks in LIFO order
(lines 30, 33). -/
def getLeastBusyNodeLockTrace : List LockEvent :=
  [.acq .cacheLock false, .rel .cacheLock false,
   .acq .requestLock false,
   .acq .cacheLock false,
   .rel .cacheLock false,
   .rel .requestLock false]

/-- Lock operations of one eviction-checking tick of the background task
(part_003 lines 216-255): snapshot the cache entry under `cacheLock.RLock`,
release it, snapshot the counters under `requestLock.RLock`, release, and
only then take `cacheLock.Lock` for the delete. -/
def cacheRefreshTickLockTrace : List LockEvent :=
  [.acq .cacheLock false, .rel .cacheLock false,
   .acq .requestLock false, .rel .requestLock false,
   .acq .cacheLock true, .rel .cacheLock true]

/-- Whether a trace contains an acquisition of the registry (cache) lock at
a point where the counter (request) lock is held; the Boolean argument is
whether the counter lock is held entering the trace. -/
def acquiresCacheWhileRequestHeld : List LockEvent → Bool → Bool
  | [], _ => false
  | .acq .requestLock _ :: rest, _ => acquiresCacheWhileRequestHeld rest true
  | .rel .requestLock _ :: rest, _ => acquiresCacheWhileRequestHeld rest false
  | .acq .cacheLock _ :: rest, held =>
    held || acquiresCacheWhileRequestHeld rest held
  | .rel .cacheLock _ :: rest, held => acquiresCacheWhileRequestHeld rest held

/-- Credential extraction of ProxyHandler (part_000 lines 108-114): the
X-C3-API-KEY header wins; only when it is empty is the Authorization header
consulted, and it yields a key only when non-empty, strictly longer than 7
characters, and starting with exactly "Bearer " — the key is then the text
after that prefix. -/
def extractAPIKey (xc3 auth : String) : String :=
  if xc3 = "" then
    if auth ≠ "" ∧ 7 < auth.length ∧ auth.take 7 = "Bearer " then auth.drop 7
    else xc3
  else xc3

/-- The 401 gate of ProxyHandler (part_000 lines 116-119): an empty
extracted key is rejected with HTTP 401. -/
def authStatus (xc3 auth : String) : Option Nat :=
  if extractAPIKey xc3 auth = "" then some 401 else none

/-- Concrete running workloads used by the witnesses and counterexamples. -/
def wA : Workload := ⟨0, 100, "node-a", true, "running", "gpu", "wl-a", some ["t"]⟩

def wB : Workload := ⟨0, 100, "node-b", true, "running", "gpu", "wl-b", some ["t"]⟩

def wC : Workload := ⟨0, 100, "node-c", true, "running", "gpu", "wl-c", none⟩

/-- An in-flight table whose every entry is present with count 0. -/
def cZero : String → Option Int := fun _ => some 0

theorem trackRequest_nonneg (c d : Int) : 0 ≤ trackRequest c d := by
  unfold trackRequest
  split
  · exact le_refl 0
  split
  · exact le_refl 0
  split
  · exact le_refl 0
  · omega

theorem scanl_trackRequest_nonneg (deltas : List Int) :
    ∀ (c : Int), 0 ≤ c → ∀ s ∈ List.scanl trackRequest c deltas, 0 ≤ s := by
  induction deltas with
  | nil =>
    intro c hc s hs
    simp [List.scanl] at hs
    omega
  | cons d ds ih =>
    intro c hc s hs
    simp only [List.scanl, List.mem_cons] at hs
    rcases hs with h | h
    · omega
    · exact ih (trackRequest c d) (trackRequest_nonneg c d) s h

theorem minFrom_cons (counts : String → Option Int) (m : Int) (a : String)
    (l : List String) :
    minFrom counts m (a :: l) = minFrom counts (min m (readCount counts a)) l := rfl

theorem minFrom_le (counts : String → Option Int) (nodes : List String) :
    ∀ m : Int, minFrom counts m nodes ≤ m := by
  induction nodes with
  | nil => intro m; simp [minFrom]
  | cons a l ih =>
    intro m
    rw [minFrom_cons]
    exact le_trans (ih (min m (readCount counts a))) (min_le_left _ _)

theorem find?_count_head (counts : String → Option Int) (a : String)
    (l : List String) (μ : Int) (h : readCount counts a = μ) :
    List.find? (fun n => decide (readCount counts n = μ)) (a :: l) = some a := by
  rw [List.find?_cons, decide_eq_true h]

theorem find?_count_tail (counts : String → Option Int) (a : String)
    (l : List String) (μ : Int) (h : ¬ readCount counts a = μ) :
    List.find? (fun n => decide (readCount counts n = μ)) (a :: l) =
      List.find? (fun n => decide (readCount counts n = μ)) l := by
  rw [List.find?_cons, decide_eq_false h]

theorem minFrom_find_isSome (counts : String → Option Int) :
    ∀ (nodes : List String) (m : Int), minFrom counts m nodes ≠ m →
      ∃ r, nodes.find?
          (fun n => decide (readCount counts n = minFrom counts m nodes)) = some r := by
  intro nodes
  induction nodes with
  | nil => intro m hm; simp [minFrom] at hm
  | cons a l ih =>
    intro m hm
    rw [minFrom_cons] at hm ⊢
    by_cases hha : readCount counts a = minFrom counts (min m (readCount counts a)) l
    · exact ⟨a, find?_count_head counts a l _ hha⟩
    · have hne : minFrom counts (min m (readCount counts a)) l ≠ min m (readCount counts a) := by
        intro hc
        rcases min_choice m (readCount counts a) with h | h
        · exact hm (hc.trans h)
        · exact hha ((hc.trans h).symm)
      obtain ⟨r, hr⟩ := ih (min m (readCount counts a)) hne
      refine ⟨r, ?_⟩
      rw [find?_count_tail counts a l _ hha, hr]

theorem selectLoop_spec (counts : String → Option Int) (nodes : List String) :
    ∀ (sel : String) (m : Int), 0 ≤ m →
    (∀ n ∈ nodes, 0 ≤ readCount counts n) →
    (selectLoop counts nodes sel m).2 = minFrom counts m nodes ∧
    (selectLoop counts nodes sel m).1 =
      (if minFrom counts m nodes = m then sel
       else (nodes.find?
          (fun n => decide (readCount counts n = minFrom counts m nodes))).getD sel) := by
  induction nodes with
  | nil =>
    intro sel m hm _
    simp [selectLoop, minFrom]
  | cons a l ih =>
    intro sel m hm hn
    have hma : ¬ (m = -1) := by omega
    have ha : 0 ≤ readCount counts a := hn a (List.mem_cons_self a l)
    have hnl : ∀ n ∈ l, 0 ≤ readCount counts n :=
      fun n hmem => hn n (List.mem_cons_of_mem a hmem)
    rw [minFrom_cons]
    by_cases hlt : readCount counts a < m
    · have hmin : min m (readCount counts a) = readCount counts a :=
        min_eq_right (le_of_lt hlt)
      rw [hmin]
      have hrec : selectLoop counts (a :: l) sel m =
          selectLoop counts l a (readCount counts a) := by
        simp only [selectLoop]
        rw [if_pos (Or.inr hlt)]
      rw [hrec]
      obtain ⟨h2, h1⟩ := ih a (readCount counts a) ha hnl
      refine ⟨h2, ?_⟩
      rw [h1]
      by_cases heq : minFrom counts (readCount counts a) l = readCount counts a
      · have hμm : ¬ minFrom counts (readCount counts a) l = m := by omega
        rw [if_pos heq, if_neg hμm,
          find?_count_head counts a l _ heq.symm]
        rfl
      · have hle : minFrom counts (readCount counts a) l ≤ readCount counts a :=
          minFrom_le counts l (readCount counts a)
        have hμm : ¬ minFrom counts (readCount counts a) l = m := by omega
        rw [if_neg heq, if_neg hμm]
        obtain ⟨r, hr⟩ := minFrom_find_isSome counts l (readCount counts a)
          (fun hc => heq hc)
        rw [find?_count_tail counts a l _ (fun hc => heq hc.symm), hr]
        rfl
    · have hmin : min m (readCount counts a) = m := min_eq_left (by omega)
      rw [hmin]
      have hrec : selectLoop counts (a :: l) sel m = selectLoop counts l sel m := by
        simp only [selectLoop]
        rw [if_neg (by push_neg; exact ⟨hma, by omega⟩)]
      rw [hrec]
      obtain ⟨h2, h1⟩ := ih sel m hm hnl
      refine ⟨h2, ?_⟩
      rw [h1]
      by_cases heq : minFrom counts m l = m
      · rw [if_pos heq, if_pos heq]
      · have hle : minFrom counts m l ≤ m := minFrom_le counts l m
        rw [if_neg heq, if_neg heq,
          find?_count_tail counts a l _ (by omega)]

theorem addTags_apply (node : String) (tags : List String) :
    ∀ (m : String → List String) (t : String),
    addTags node tags m t =
      m t ++ (tags.filter (fun s => decide (s = t))).map (fun _ => node) := by
  induction tags with
  | nil => intro m t; simp [addTags]
  | cons tag rest ih =>
    intro m t
    have hstep : addTags node (tag :: rest) m =
        addTags node rest (fun s => if s = tag then m s ++ [node] else m s) := rfl
    rw [hstep, ih]
    by_cases h : tag = t
    · subst h
      simp [List.filter_cons, List.append_assoc]
    · have ht : ¬ t = tag := fun hx => h hx.symm
      simp [List.filter_cons, h, ht]

theorem buildTagMapFrom_apply (ws : List Workload) :
    ∀ (m : String → List String) (t : String),
    buildTagMapFrom ws m t =
      m t ++ (ws.filter (fun w => isRunning w)).flatMap
        (fun w => ((w.tags.getD []).filter (fun s => decide (s = t))).map
          (fun _ => w.node)) := by
  induction ws with
  | nil => intro m t; simp [buildTagMapFrom]
  | cons w rest ih =>
    intro m t
    by_cases h : isRunning w
    · have hstep : buildTagMapFrom (w :: rest) m =
          buildTagMapFrom rest (addTags w.node (w.tags.getD []) m) := by
        simp [buildTagMapFrom, h]
      rw [hstep, ih, addTags_apply]
      simp [List.filter_cons, h, List.append_assoc]
    · have hstep : buildTagMapFrom (w :: rest) m = buildTagMapFrom rest m := by
        simp [buildTagMapFrom, h]
      rw [hstep, ih]
      simp [List.filter_cons, h]

theorem buildTagMap_mem (ws : List Workload) (t n : String) :
    n ∈ buildTagMap ws t ↔
      ∃ w ∈ ws, isRunning w = true ∧ t ∈ w.tags.getD [] ∧ w.node = n := by
  rw [show buildTagMap ws = buildTagMapFrom ws (fun _ => []) from rfl,
    buildTagMapFrom_apply]
  simp only [List.nil_append, List.mem_flatMap, List.mem_filter, List.mem_map,
    decide_eq_true_eq]
  constructor
  · rintro ⟨w, ⟨hw, hr⟩, s, ⟨hs, hst⟩, hn⟩
    exact ⟨w, hw, hr, hst ▸ hs, hn⟩
  · rintro ⟨w, hw, hr, hts, hn⟩
    exact ⟨w, ⟨hw, hr⟩, t, ⟨hts, rfl⟩, hn⟩

theorem foldl_runningCount (ws : List Workload) :
    ∀ a : Nat, ws.foldl (fun c w => if isRunning w then c + 1 else c) a =
      a + (ws.filter (fun w => isRunning w)).length := by
  induction ws with
  | nil => intro a; simp
  | cons w rest ih =>
    intro a
    by_cases h : isRunning w
    · simp [List.filter_cons, h, ih]
      omega
    · simp [List.filter_cons, h, ih]

/-- Claim C1: for every tenant state and tag with a non-empty candidate list,
GetLeastBusyNode enumerates the candidates in the order held by the tag index
(for tag "all", the upstream-reported workload order filtered to running),
reads each candidate's in-flight count with 0 as the default for a missing
entry, and returns the first candidate attaining the minimum count — the
running minimum is replaced only on a strictly smaller count, so ties resolve
to the earliest candidate in enumeration order (stated via `List.find?` on
the predicate "count equals the minimum"). The nonnegativity hypothesis on
counts is the invariant maintained by `trackRequest`. -/
theorem getLeastBusyNode_first_argmin (workloads : Option (List Workload))
    (tagMap : Option (String → List String)) (counts : String → Option Int)
    (tag : String) (nodes : List String)
    (hc : candidateNodes workloads tagMap tag = some nodes)
    (hne : nodes ≠ [])
    (hnn : ∀ n : String, 0 ≤ readCount counts n) :
    ∃ r, getLeastBusyNode workloads tagMap counts tag = some r ∧
      nodes.find? (fun n => decide (readCount counts n = minCount counts nodes)) =
        some r := by
  cases nodes with
  | nil => exact absurd rfl hne
  | cons a l =>
    have ha : 0 ≤ readCount counts a := hnn a
    obtain ⟨h2, h1⟩ := selectLoop_spec counts l a (readCount counts a) ha
      (fun n _ => hnn n)
    have hstep : selectLoop counts (a :: l) "" (-1) =
        selectLoop counts l a (readCount counts a) := by
      simp [selectLoop]
    refine ⟨(selectLoop counts l a (readCount counts a)).1, ?_, ?_⟩
    · simp only [getLeastBusyNode, hc, List.isEmpty_cons, hstep]
      rfl
    · simp only [minCount]
      rw [h1]
      by_cases heq : minFrom counts (readCount counts a) l = readCount counts a
      · rw [if_pos heq]
        exact find?_count_head counts a l _ heq.symm
      · obtain ⟨r, hr⟩ := minFrom_find_isSome counts l (readCount counts a)
          (fun hx => heq hx)
        have hle : minFrom counts (readCount counts a) l ≤ readCount counts a :=
          minFrom_le counts l (readCount counts a)
        rw [if_neg heq, find?_count_tail counts a l _ (by omega), hr]
        simp

/-- Concrete instance of claim C1: with tag "all" over two running workloads
and all counts 0, the selection returns the first candidate in upstream
order. -/
theorem getLeastBusyNode_first_argmin_witness :
    ∃ r, getLeastBusyNode (some [wA, wB]) none cZero "all" = some r ∧
      [wA.node, wB.node].find?
        (fun n => decide (readCount cZero n = minCount cZero [wA.node, wB.node])) =
          some r :=
  getLeastBusyNode_first_argmin (some [wA, wB]) none cZero "all"
    [wA.node, wB.node] rfl (by decide) (fun n => by simp [readCount, cZero])

/-- Claim C2: for every finite sequence of `TrackRequest` calls on one
(tenant, node) pair with deltas in (+1, -1), starting from an absent entry
(implicit 0), the stored count observed after every call is nonnegative, and
a decrement whose application would take an existing or implicit-zero value
below zero clamps the stored value to 0 instead of storing a negative number. -/
theorem trackRequest_clamped_sum_invariant (deltas : List Int)
    (hd : ∀ d ∈ deltas, d = 1 ∨ d = -1) :
    (∀ s ∈ trackStates deltas, 0 ≤ s) ∧
    (∀ c : Int, c ≤ 0 → trackRequest c (-1) = 0) := by
  constructor
  · exact scanl_trackRequest_nonneg deltas 0 (le_refl 0)
  · intro c hc
    unfold trackRequest
    rw [if_pos ⟨by omega, hc⟩]

/-- Concrete instance of claim C2: the trace 0,1,2,1,0,0 produced by the call
sequence +1,+1,-1,-1,-1 (a double decrement) stays nonnegative at step 5. -/
theorem trackRequest_clamped_sum_invariant_witness :
    0 ≤ (trackStates [1, 1, -1, -1, -1]).getD 5 (-1) :=
  (trackRequest_clamped_sum_invariant [1, 1, -1, -1, -1] (by decide)).1
    ((trackStates [1, 1, -1, -1, -1]).getD 5 (-1)) (by decide)

/-- Claim C3: on a background tick for a tenant whose cache entry is present,
(1) idle for more than 180 seconds with no positive in-flight count removes
the registry entry and the tag index and terminates the task; (2) idle in
(60s, 180s] with no in-flight requests retains the registry and still
performs the fetch/update of that tick; (3) every non-terminating tick
performs the fetch/update regardless of whether the result is empty, and an
empty result is retained (stored as the new workload list) rather than
treated as an error. -/
theorem refreshTick_spec (c : CacheState)
    (tagMap : Option (String → List String))
    (inFlight : Option (List (String × Int))) (now : Nat)
    (fetchResult : Except Unit (List Workload)) :
    (180 < now - c.lastAccess → hasActiveRequests inFlight = false →
      refreshTick (some c) tagMap inFlight now fetchResult =
        .terminatedEvicted ⟨none, none⟩) ∧
    (60 < now - c.lastAccess → now - c.lastAccess ≤ 180 →
      hasActiveRequests inFlight = false → ∀ ws, fetchResult = .ok ws →
      refreshTick (some c) tagMap inFlight now fetchResult =
        .continued ⟨some ⟨some ws, now, c.lastAccess⟩, some (buildTagMap ws)⟩) ∧
    (¬ (180 < now - c.lastAccess ∧ hasActiveRequests inFlight = false) →
      ∀ ws, fetchResult = .ok ws →
      refreshTick (some c) tagMap inFlight now fetchResult =
        .continued ⟨some ⟨some ws, now, c.lastAccess⟩, some (buildTagMap ws)⟩) := by
  refine ⟨?_, ?_, ?_⟩
  · intro hidle hact
    simp only [refreshTick]
    rw [if_pos ⟨hidle, hact⟩]
  · intro _ hle hact ws hws
    subst hws
    simp only [refreshTick]
    rw [if_neg (by omega)]
    rfl
  · intro hcond ws hws
    subst hws
    simp only [refreshTick]
    rw [if_neg hcond]
    rfl

/-- Concrete instance of claim C3: a tenant last accessed at second 10,
observed at second 200 with no in-flight entries, is evicted and the task
terminates. -/
theorem refreshTick_spec_witness :
    refreshTick (some ⟨some [wA], 0, 10⟩) none none 200 (.ok []) =
      .terminatedEvicted ⟨none, none⟩ :=
  (refreshTick_spec ⟨some [wA], 0, 10⟩ none none 200 (.ok [])).1
    (by decide) (by decide)

/-- Claim C4: when getWorkloads is reached from the request path and the
upstream fetch fails, a tenant with a prior non-empty cached snapshot gets
that cached workload list back with no error, and an error reaches the
caller exactly when no prior snapshot exists — no cache entry, or an entry
whose workload list is nil or empty. -/
theorem getWorkloads_fetch_failure (cache : Option CacheState) (now : Nat) :
    (∀ c w rest, cache = some c → c.workloads = some (w :: rest) →
      getWorkloadsResult cache now (.error ()) = .ok (w :: rest)) ∧
    (getWorkloadsResult cache now (.error ()) = .error () ↔
      cache = none ∨ ∃ c, cache = some c ∧
        (c.workloads = none ∨ c.workloads = some [])) := by
  constructor
  · rintro c w rest rfl hw
    simp only [getWorkloadsResult, hw]
    split
    · rfl
    · rfl
  · cases cache with
    | none => simp [getWorkloadsResult]
    | some c =>
      cases hw : c.workloads with
      | none => simp [getWorkloadsResult, hw]
      | some l =>
        cases l with
        | nil => simp [getWorkloadsResult, hw]
        | cons w rest =>
          simp only [getWorkloadsResult, hw]
          constructor
          · intro h
            split at h
            · exact Except.noConfusion h
            · exact Except.noConfusion h
          · rintro (h | ⟨c', hc', h | h⟩)
            · exact Option.noConfusion h
            · cases hc'
              rw [hw] at h
              exact Option.noConfusion h
            · cases hc'
              rw [hw] at h
              simp at h

/-- Concrete instance of claim C4: a tenant whose cached snapshot is the
single running workload `wA`, with a failed refresh, gets the cached list
back with no error. -/
theorem getWorkloads_fetch_failure_witness :
    getWorkloadsResult (some ⟨some [wA], 0, 0⟩) 100 (.error ()) = .ok [wA] :=
  (getWorkloads_fetch_failure (some ⟨some [wA], 0, 0⟩) 100).1
    ⟨some [wA], 0, 0⟩ wA [] rfl rfl

/-- Counterexample to claim C5 as stated: a failure to construct the
outbound request is surfaced with HTTP status 500
(`http.StatusInternalServerError`, part_000 line 23), not 502. -/
theorem handleProxyRequest_build_failure_counterexample :
    (handleProxyRequest 0 false (.ok 200) true).outcome = .clientError 500 ∧
    (handleProxyRequest 0 false (.ok 200) true).outcome ≠ .clientError 502 := by
  exact ⟨rfl, by decide⟩

/-- Claim C5 (amended): in HandleProxyRequest a failure to construct the
outbound request is surfaced to the caller with HTTP status 500, while a
transport-level failure reaching the chosen node is surfaced as a
gateway-level error with HTTP status 502. -/
theorem handleProxyRequest_error_statuses (count : Int)
    (transport : Except Unit Nat) (copyOk : Bool) :
    (handleProxyRequest count false transport copyOk).outcome =
      .clientError 500 ∧
    (handleProxyRequest count true (.error ()) copyOk).outcome =
      .clientError 502 :=
  ⟨rfl, rfl⟩

/-- Counterexample to claim C6 as stated: when the tenant has no cache entry,
updateCache is a no-op (`cache == nil` early return at part_003 lines
109-112), so the given workload list is not stored and no tag index is
installed. -/
theorem updateCache_missing_entry_counterexample :
    (updateCache ⟨none, none⟩ [wA] 5).cache = none ∧
    (updateCache ⟨none, none⟩ [wA] 5).tagMap = none ∧
    ¬ ∃ c, (updateCache ⟨none, none⟩ [wA] 5).cache = some c ∧
        c.workloads = some [wA] := by
  refine ⟨rfl, rfl, ?_⟩
  rintro ⟨c, hc, -⟩
  exact Option.noConfusion hc

/-- Claim C6 (amended): for every tenant that has an existing cache entry and
every workload list, after updateCache the stored workload list equals the
given list, the fetch timestamp is stamped, and the tag index maps exactly
the tags of workloads with running=true and status="running" to their nodes;
a workload failing that predicate contributes to no tag bucket and not to
the running count (the running count equals the length of the running
filter). -/
theorem updateCache_existing_entry_spec (c : CacheState)
    (tm : Option (String → List String)) (ws : List Workload) (now : Nat) :
    ∃ c' : CacheState, (updateCache ⟨some c, tm⟩ ws now).cache = some c' ∧
      c'.workloads = some ws ∧ c'.lastFetch = now ∧
      (∃ f, (updateCache ⟨some c, tm⟩ ws now).tagMap = some f ∧
        ∀ t n : String, n ∈ f t ↔
          ∃ w ∈ ws, isRunning w = true ∧ t ∈ w.tags.getD [] ∧ w.node = n) ∧
      runningCount ws = (ws.filter (fun w => isRunning w)).length := by
  refine ⟨_, rfl, rfl, rfl, ⟨buildTagMap ws, rfl, fun t n => buildTagMap_mem ws t n⟩, ?_⟩
  have h := foldl_runningCount ws 0
  simpa [runningCount] using h

/-- Claim C7: for index-based routing the candidate list is the
upstream-reported workload list filtered to running=true and
status="running" in upstream order; an index within range routes to the
index-th such node with the downstream path "/" plus the remainder ("/"
when none), an index outside the range yields HTTP 404; in particular with
running workloads A, B, C the path /1/foo routes to B with downstream path
/foo and /5/foo yields 404. -/
theorem routeByIndex_spec (ws : List Workload) (p0 : String)
    (rest : List String) (k : Int) (hk : atoi p0 = some k) :
    (∀ w, 0 ≤ k → (ws.filter (fun x => isRunning x))[k.toNat]? = some w →
      routeByIndex (p0 :: rest) ws = .proxyTo w.node (restPath rest)) ∧
    ((k < 0 ∨ ((ws.filter (fun x => isRunning x)).length : Int) ≤ k) →
      routeByIndex (p0 :: rest) ws = .httpError 404) ∧
    routeRequestPath "/1/foo" [wA, wB, wC] = some (.proxyTo "node-b" "/foo") ∧
    routeRequestPath "/5/foo" [wA, wB, wC] = some (.httpError 404) := by
  refine ⟨?_, ?_, by decide, by decide⟩
  · intro w hk0 hw
    have hlen : k.toNat < (ws.filter (fun x => isRunning x)).length :=
      (List.getElem?_eq_some_iff.mp hw).1
    have hknat : (k.toNat : Int) = k := Int.toNat_of_nonneg hk0
    have hne : ¬ (ws.filter (fun x => isRunning x)).isEmpty = true := by
      intro he
      rw [List.isEmpty_iff] at he
      rw [he] at hlen
      simp at hlen
    simp only [routeByIndex, hk]
    rw [if_neg hne, if_neg (by omega)]
    have hgetD : (ws.filter (fun x => isRunning x)).getD k.toNat default = w := by
      simp [List.getD, hw]
    rw [hgetD]
  · intro hout
    simp only [routeByIndex, hk]
    by_cases he : (ws.filter (fun x => isRunning x)).isEmpty = true
    · rw [if_pos he]
    · rw [if_neg he, if_pos hout]

/-- Concrete instance of claim C7: parts "1", "foo" over running workloads
A, B, C route to node-b with downstream path /foo. -/
theorem routeByIndex_spec_witness :
    routeByIndex ["1", "foo"] [wA, wB, wC] =
      .proxyTo "node-b" (restPath ["foo"]) :=
  (routeByIndex_spec [wA, wB, wC] "1" ["foo"] 1 (by decide)).1 wB
    (by decide) (by decide)

/-- Claim C8: HandleProxyRequest increments the (tenant, node) in-flight
counter before issuing the outbound call (the counter observed during the
call is the incremented value) and decrements it exactly once on every exit
path that follows the increment — success, transport error, or a relay
(write/disconnect) error — so the counter after the call equals its value
before the call; the nonnegativity hypothesis is the clamping invariant the
counter always satisfies. -/
theorem handleProxyRequest_counter_net_zero (count : Int) (hc : 0 ≤ count)
    (buildOk : Bool) (transport : Except Unit Nat) (copyOk : Bool) :
    (handleProxyRequest count buildOk transport copyOk).finalCount = count ∧
    (buildOk = true →
      (handleProxyRequest count buildOk transport copyOk).inFlightDuringCall =
        some (count + 1)) := by
  have hinc : trackRequest count 1 = count + 1 := by
    unfold trackRequest
    rw [if_neg (by omega), if_neg (by omega), if_neg (by omega)]
  have hdec : trackRequest (count + 1) (-1) = count := by
    unfold trackRequest
    rw [if_neg (by omega), if_neg (by omega), if_neg (by omega)]
    omega
  cases buildOk with
  | false => exact ⟨rfl, fun h => Bool.noConfusion h⟩
  | true =>
    cases transport with
    | error e =>
      refine ⟨?_, fun _ => ?_⟩ <;>
        simp only [handleProxyRequest, Bool.true_eq_false, if_neg, hinc, hdec] <;>
        rfl
    | ok status =>
      refine ⟨?_, fun _ => ?_⟩ <;>
        simp only [handleProxyRequest, Bool.true_eq_false, if_neg, hinc, hdec] <;>
        rfl

/-- Concrete instance of claim C8: with two requests already in flight, a
transport failure leaves the counter at two afterwards, and three during the
call. -/
theorem handleProxyRequest_counter_net_zero_witness :
    (handleProxyRequest 2 true (.error ()) false).finalCount = 2 ∧
    (handleProxyRequest 2 true (.error ()) false).inFlightDuringCall =
      some (2 + 1) :=
  ⟨(handleProxyRequest_counter_net_zero 2 (by decide) true (.error ()) false).1,
   (handleProxyRequest_counter_net_zero 2 (by decide) true (.error ()) false).2 rfl⟩

/-- Counterexample to claim C9 as stated: GetLeastBusyNode acquires the
registry lock (loadbalancer.go line 32) while already holding the counter
lock (line 29), so a code path does acquire the registry lock under the
counter lock. -/
theorem lock_order_counterexample :
    acquiresCacheWhileRequestHeld getLeastBusyNodeLockTrace false = true := by
  decide

/-- Claim C9 (amended): the eviction path of the background task takes its
counter snapshot under the counter lock, releases it, and only then acquires
the registry lock — it never acquires the registry lock while holding the
counter lock — but GetLeastBusyNode does acquire the registry lock while
holding the counter lock, so the rule does not hold of every code path. -/
theorem lock_order_eviction_only :
    acquiresCacheWhileRequestHeld cacheRefreshTickLockTrace false = false ∧
    acquiresCacheWhileRequestHeld getLeastBusyNodeLockTrace false = true := by
  decide

/-- Claim C10: a non-empty X-C3-API-KEY header always supplies the tenant
key and the Authorization header is ignored; the Authorization header is
consulted only when X-C3-API-KEY is absent or empty, and yields a key
exactly when its value is strictly longer than 7 characters and starts with
exactly "Bearer " (the key being the remainder) — so a bare "Bearer " with
no token, or another scheme such as Basic, leaves the key empty and draws a
401. -/
theorem extractAPIKey_spec (xc3 auth : String) :
    (xc3 ≠ "" → extractAPIKey xc3 auth = xc3) ∧
    (xc3 = "" → extractAPIKey xc3 auth ≠ "" →
      7 < auth.length ∧ auth.take 7 = "Bearer " ∧
        extractAPIKey xc3 auth = auth.drop 7) ∧
    authStatus "" "Bearer " = some 401 ∧
    authStatus "" "Basic dXNlcjpwYXNz" = some 401 := by
  refine ⟨?_, ?_, by decide, by decide⟩
  · intro h
    rw [extractAPIKey, if_neg h]
  · intro h hkey
    subst h
    rw [extractAPIKey, if_pos rfl] at hkey ⊢
    by_cases hc : auth ≠ "" ∧ 7 < auth.length ∧ auth.take 7 = "Bearer "
    · rw [if_pos hc] at hkey ⊢
      exact ⟨hc.2.1, hc.2.2, rfl⟩
    · rw [if_neg hc] at hkey
      exact absurd rfl hkey

/-- Concrete instance of claim C10: with both headers present, the tenant
key comes from X-C3-API-KEY and the Bearer token is ignored. -/
theorem extractAPIKey_spec_witness :
    extractAPIKey "tenant-key-1234" "Bearer other-key" = "tenant-key-1234" :=
  (extractAPIKey_spec "tenant-key-1234" "Bearer other-key").1 (by decide)

end C3Proxy
